import Mathlib

/-!
Verification of the mode arbitration core of `src/agent/modes.js`.

The file shallowly embeds the module: the five registered modes
(`self_defense`, `hunting`, `item_collecting`, `torch_placing`,
`idle_staring`), the `execute` wrapper, and the `ModeController`
(`exists` / `setOn` / `isOn` / `pause` / `update`).

Modelling conventions:
- Entities returned by `world.getNearestEntityWhere` are identified by
  `Nat` ids; JavaScript reference equality (`!==`) between entities becomes
  id inequality.
- Each query a mode makes during one tick (`agent.isIdle()`, the nearest
  enemy / huntable / item, `isClearPath`, the nearest torch block, the
  inventory check, `Date.now()`, the `Math.random()` draws) is a field of an
  `Env` record, one `Env` per tick.  Within one tick at most one mode can
  dispatch an action, and it is the last mode updated in that tick, so a
  single per-tick value for each query is faithful.
- `execute` is asynchronous in the source: it sets `mode.active = true`
  synchronously, and sets `mode.active = false` only when the awaited
  action settles.  It is embedded as the pair `executeStart` (the
  synchronous prefix, performed during the tick that dispatches) and
  `executeFinish` (the continuation after the action settles, performed
  between ticks by `settleMode`).
- JS exceptions (the `TypeError` raised by `this.modes_map[name].«on»` when
  the lookup is `undefined`) become `Except.error`.
- `modes_map` is the object literal `{}` populated with the five mode
  names; property reads on it also see the members inherited from
  `Object.prototype`, which is modelled explicitly by `mapLookup`.
-/

/-- The five mode names registered in the `modes` list, in source order. -/
inductive ModeName where
  | self_defense
  | hunting
  | item_collecting
  | torch_placing
  | idle_staring
deriving DecidableEq

/-- The three booleans every mode object carries: `on`, `active`, `paused`.
The source objects initially lack the `paused` property; reading a missing
property yields `undefined`, which is falsy, so it is modelled as `false`. -/
structure ModeFlags where
  «on» : Bool
  active : Bool
  paused : Bool
deriving DecidableEq

/-- The mutable state of the whole `modes` list: the flag triple of each of
the five modes plus the mode-specific transient fields (`prev_item` and
`noticed_at` of `item_collecting`; `staring`, `last_entity`, `next_change`
of `idle_staring`).  `noticed_at` is an `Int` because the source uses `-1`
as the not-noticed sentinel. -/
structure AgentState where
  self_defense : ModeFlags
  hunting : ModeFlags
  item_collecting : ModeFlags
  torch_placing : ModeFlags
  idle_staring : ModeFlags
  ic_prev_item : Option Nat
  ic_noticed_at : Int
  is_staring : Bool
  is_last_entity : Option Nat
  is_next_change : Nat
deriving DecidableEq

/-- The external world as one tick observes it: the results of every query
the update functions can make during that tick. -/
structure Env where
  isIdle : Bool
  now : Nat
  enemy : Option Nat
  enemyClear : Bool
  huntable : Option Nat
  huntableClear : Bool
  item : Option Nat
  itemClear : Bool
  nearTorch : Bool
  hasTorch : Bool
  nearestEntity : Option Nat
  entityDistLt10 : Bool
  entityIsEnderman : Bool
  randStaring : Bool
  randStareMs : Nat
  randChangeMs : Nat
deriving DecidableEq

/-- Read the flag triple of one mode out of the state. -/
def flags (s : AgentState) : ModeName → ModeFlags
  | .self_defense => s.self_defense
  | .hunting => s.hunting
  | .item_collecting => s.item_collecting
  | .torch_placing => s.torch_placing
  | .idle_staring => s.idle_staring

/-- Replace the flag triple of one mode. -/
def setFlags (s : AgentState) (m : ModeName) (f : ModeFlags) : AgentState :=
  match m with
  | .self_defense => { s with self_defense := f }
  | .hunting => { s with hunting := f }
  | .item_collecting => { s with item_collecting := f }
  | .torch_placing => { s with torch_placing := f }
  | .idle_staring => { s with idle_staring := f }

/-- Completion status reported by `agent.coder.execute` for a dispatched
action: success, a caught error, or timeout expiry. -/
inductive OutcomeStatus where
  | success
  | failure
  | timeout
deriving DecidableEq

/-- The `code_return` value the wrapper receives when the action settles. -/
structure Outcome where
  status : OutcomeStatus
  message : String
deriving DecidableEq

/-- Synchronous prefix of `execute(mode, agent, func, timeout)`: the
`mode.active = true` assignment performed before the action is awaited. -/
def executeStart (f : ModeFlags) : ModeFlags :=
  { f with active := true }

/-- Continuation of `execute` after `await agent.coder.execute(...)`
settles with outcome `o`: `mode.active = false` followed by a log line.
The outcome only feeds the log, so the state change is the same for
success, failure and timeout. -/
def executeFinish (f : ModeFlags) (_o : Outcome) : ModeFlags :=
  { f with active := false }

/-- `self_defense.update`: skip if already active; otherwise, if a hostile
entity is within 8 blocks and the path to it is clear, dispatch
`skills.defendSelf` through `execute`.  The returned `Bool` records whether
`execute` was invoked this call. -/
def self_defense_update (s : AgentState) (env : Env) : AgentState × Bool :=
  if s.self_defense.active then (s, false)
  else
    match env.enemy with
    | some _ =>
      if env.enemyClear then
        (setFlags s .self_defense (executeStart s.self_defense), true)
      else (s, false)
    | none => (s, false)

/-- `hunting.update`: when the agent is idle and a huntable entity is within
8 blocks with a clear path, dispatch `skills.attackEntity` through
`execute`.  Note the source has no `if (this.active) return` guard here. -/
def hunting_update (s : AgentState) (env : Env) : AgentState × Bool :=
  if env.isIdle then
    match env.huntable with
    | some _ =>
      if env.huntableClear then
        (setFlags s .hunting (executeStart s.hunting), true)
      else (s, false)
    | none => (s, false)
  else (s, false)

/-- `item_collecting.wait`: seconds to wait after noticing an item. -/
def ic_wait : Nat := 2

/-- `item_collecting.update`: skip if active; when idle, if the nearest
dropped item differs from `prev_item` and has a clear path, start (or keep)
the `noticed_at` timer and, once `Date.now() - noticed_at > wait * 1000`,
record the item in `prev_item`, dispatch `skills.pickupNearbyItems` and
clear the timer; in every other idle case reset `noticed_at` to `-1`. -/
def item_collecting_update (s : AgentState) (env : Env) : AgentState × Bool :=
  if s.item_collecting.active then (s, false)
  else if env.isIdle then
    match env.item with
    | some i =>
      if (some i != s.ic_prev_item) && env.itemClear then
        let t : Int := if s.ic_noticed_at == -1 then (env.now : Int) else s.ic_noticed_at
        if (env.now : Int) - t > (ic_wait : Int) * 1000 then
          let s1 := { s with ic_prev_item := some i }
          let s2 := setFlags s1 .item_collecting (executeStart s1.item_collecting)
          ({ s2 with ic_noticed_at := -1 }, true)
        else ({ s with ic_noticed_at := t }, false)
      else ({ s with ic_noticed_at := -1 }, false)
    | none => ({ s with ic_noticed_at := -1 }, false)
  else (s, false)

/-- `torch_placing.update`: skip if active; when idle, if no torch block is
within 8 blocks and the inventory holds a torch, dispatch
`skills.placeBlock` through `execute`. -/
def torch_placing_update (s : AgentState) (env : Env) : AgentState × Bool :=
  if s.torch_placing.active then (s, false)
  else if env.isIdle then
    if env.nearTorch then (s, false)
    else if env.hasTorch then
      (setFlags s .torch_placing (executeStart s.torch_placing), true)
    else (s, false)
  else (s, false)

/-- `idle_staring.update`: purely cosmetic; sets `active = true` while the
agent is idle and `active = false` as soon as it is not, never calling
`execute`.  The gaze calls (`bot.lookAt`, `bot.look`) are external effects
with no registry state, so only the `staring` / `last_entity` /
`next_change` bookkeeping is kept. -/
def idle_staring_update (s : AgentState) (env : Env) : AgentState × Bool :=
  if env.isIdle then
    let s0 := setFlags s .idle_staring { s.idle_staring with active := true }
    let entityInView :=
      env.nearestEntity.isSome && env.entityDistLt10 && !env.entityIsEnderman
    let s1 :=
      if entityInView && (env.nearestEntity != s0.is_last_entity) then
        { s0 with is_staring := true, is_last_entity := env.nearestEntity,
                  is_next_change := env.now + env.randStareMs + 4000 }
      else s0
    let s2 := if !entityInView then { s1 with is_last_entity := none } else s1
    let s3 :=
      if env.now > s2.is_next_change then
        { s2 with is_staring := env.randStaring,
                  is_next_change := env.now + env.randChangeMs + 2000 }
      else s2
    (s3, false)
  else (setFlags s .idle_staring { s.idle_staring with active := false }, false)

/-- Dispatch table from a mode name to its update function. -/
def updateMode : ModeName → AgentState → Env → AgentState × Bool
  | .self_defense => self_defense_update
  | .hunting => hunting_update
  | .item_collecting => item_collecting_update
  | .torch_placing => torch_placing_update
  | .idle_staring => idle_staring_update

/-- The registry order of the `modes` list; the source comment states that
this order is the priority order. -/
def modeOrder : List ModeName :=
  [.self_defense, .hunting, .item_collecting, .torch_placing, .idle_staring]

/-- The evaluation guard of the controller loop: `mode.«on» && !mode.paused`. -/
def guardB (s : AgentState) (m : ModeName) : Bool :=
  (flags s m).«on» && !(flags s m).paused

/-- Result of one controller tick: the new state, the modes whose `update`
was invoked (in invocation order), and the modes that called `execute`. -/
structure TickResult where
  state : AgentState
  visited : List ModeName
  dispatched : List ModeName
deriving DecidableEq

/-- The evaluation loop of `ModeController.update`: walk the list in order;
for each mode with `on && !paused` invoke its update, and if the mode is
active immediately after the call, break. -/
def runLoop (env : Env) : List ModeName → AgentState → TickResult
  | [], s => ⟨s, [], []⟩
  | m :: rest, s =>
    if guardB s m then
      let u := updateMode m s env
      if (flags u.1 m).active then
        ⟨u.1, [m], if u.2 then [m] else []⟩
      else
        let t := runLoop env rest u.1
        ⟨t.state, m :: t.visited, (if u.2 then [m] else []) ++ t.dispatched⟩
    else runLoop env rest s

/-- The unpause pass at the top of `ModeController.update`: when the agent
is idle, set `paused = false` on every mode (the log line has no state
effect). -/
def unpauseAll (s : AgentState) : AgentState :=
  modeOrder.foldl (fun s' m => setFlags s' m { flags s' m with paused := false }) s

/-- The state at the start of the evaluation phase of a tick: the unpause
pass has run exactly when the agent is idle. -/
def preState (s : AgentState) (env : Env) : AgentState :=
  if env.isIdle then unpauseAll s else s

/-- One full `ModeController.update` tick, with its invocation trace. -/
def tickR (s : AgentState) (env : Env) : TickResult :=
  runLoop env modeOrder (preState s env)

/-- One full `ModeController.update` tick, state only. -/
def tick (s : AgentState) (env : Env) : AgentState :=
  (tickR s env).state

/-- Settlement of an in-flight `execute` invocation for mode `m` between
ticks: the suffix of the wrapper runs and clears `active`. -/
def settleMode (s : AgentState) (m : ModeName) (o : Outcome) : AgentState :=
  setFlags s m (executeFinish (flags s m) o)

/-- The `name` field of each mode object. -/
def modeNameStr : ModeName → String
  | .self_defense => "self_defense"
  | .hunting => "hunting"
  | .item_collecting => "item_collecting"
  | .torch_placing => "torch_placing"
  | .idle_staring => "idle_staring"

/-- Own-property lookup in `modes_map`: the constructor stored each mode of
`modes_list` under its name. -/
def findMode (name : String) : Option ModeName :=
  modeOrder.find? (fun m => modeNameStr m == name)

/-- Property names the object literal `{}` inherits from `Object.prototype`
in JavaScript; `modes_map[name]` yields a non-null, non-mode value for
these even though no mode was registered under them. -/
def objectProtoProps : List String :=
  ["constructor", "hasOwnProperty", "isPrototypeOf", "propertyIsEnumerable",
   "toLocaleString", "toString", "valueOf",
   "__defineGetter__", "__defineSetter__", "__lookupGetter__",
   "__lookupSetter__", "__proto__"]

/-- Outcome of the JavaScript property read `this.modes_map[name]`: a
registered mode (own property), a member inherited from
`Object.prototype`, or `undefined`. -/
inductive MapLookup where
  | found (m : ModeName)
  | inherited
  | missing
deriving DecidableEq

/-- `this.modes_map[name]` including the prototype chain of `{}`. -/
def mapLookup (name : String) : MapLookup :=
  match findMode name with
  | some m => .found m
  | none => if name ∈ objectProtoProps then .inherited else .missing

/-- `ModeController.setOn`: `this.modes_map[mode_name].«on» = on`.  On a
registered mode it sets the flag; on an inherited `Object.prototype` member
the assignment lands on that object and the registry is untouched; on
`undefined` it raises a `TypeError`. -/
def setOnE (s : AgentState) (name : String) (b : Bool) : Except String AgentState :=
  match mapLookup name with
  | .found m => .ok (setFlags s m { flags s m with «on» := b })
  | .inherited => .ok s
  | .missing => .error "TypeError: cannot set properties of undefined"

/-- `ModeController.isOn`: `return this.modes_map[mode_name].«on»`.  On a
registered mode it returns the flag; on an inherited member it returns
`undefined` (modelled `none`); on `undefined` it raises a `TypeError`. -/
def isOnE (s : AgentState) (name : String) : Except String (Option Bool) :=
  match mapLookup name with
  | .found m => .ok (some (flags s m).«on»)
  | .inherited => .ok none
  | .missing => .error "TypeError: cannot read properties of undefined"

/-- `ModeController.pause`: `this.modes_map[mode_name].paused = true`. -/
def pauseE (s : AgentState) (name : String) : Except String AgentState :=
  match mapLookup name with
  | .found m => .ok (setFlags s m { flags s m with paused := true })
  | .inherited => .ok s
  | .missing => .error "TypeError: cannot set properties of undefined"

/-- `ModeController.exists`: `return this.modes_map[mode_name] != null`.
Loose inequality with `null` is false exactly for `undefined` and `null`. -/
def existsMode (name : String) : Bool :=
  mapLookup name != MapLookup.missing

/-- The state after `initModes`: every mode starts `on = true`,
`active = false`, no `paused` property (falsy), `prev_item = null`,
`noticed_at = -1`, `staring = false`, `last_entity = null`,
`next_change = 0`. -/
def initState : AgentState :=
  { self_defense := ⟨true, false, false⟩
    hunting := ⟨true, false, false⟩
    item_collecting := ⟨true, false, false⟩
    torch_placing := ⟨true, false, false⟩
    idle_staring := ⟨true, false, false⟩
    ic_prev_item := none
    ic_noticed_at := -1
    is_staring := false
    is_last_entity := none
    is_next_change := 0 }

/-- States reachable through the module's public surface: the initial
state, controller ticks, settlement of dispatched actions, and the
successful mutating operations `setOn` and `pause`. -/
inductive Reachable : AgentState → Prop where
  | init : Reachable initState
  | tick {s : AgentState} (env : Env) : Reachable s → Reachable (tick s env)
  | settle {s : AgentState} (m : ModeName) (o : Outcome) :
      Reachable s → Reachable (settleMode s m o)
  | set_on {s s' : AgentState} (name : String) (b : Bool) :
      Reachable s → setOnE s name b = .ok s' → Reachable s'
  | pause_op {s s' : AgentState} (name : String) :
      Reachable s → pauseE s name = .ok s' → Reachable s'

/-- Number of modes with `active = true`. -/
def countActive (s : AgentState) : Nat :=
  (modeOrder.filter (fun m => (flags s m).active)).length
theorem flags_setFlags_self (s : AgentState) (m : ModeName) (f : ModeFlags) :
    flags (setFlags s m f) m = f := by
  cases m <;> rfl

theorem flags_setFlags_ne (s : AgentState) (m m' : ModeName) (f : ModeFlags)
    (h : m' ≠ m) : flags (setFlags s m f) m' = flags s m' := by
  cases m <;> cases m' <;> first
    | exact absurd rfl h
    | rfl

theorem update_flags_ne (m m' : ModeName) (s : AgentState) (env : Env)
    (h : m' ≠ m) : flags (updateMode m s env).1 m' = flags s m' := by
  cases m <;> cases m' <;> first
    | exact absurd rfl h
    | (simp only [updateMode, self_defense_update, hunting_update, item_collecting_update,
        torch_placing_update, idle_staring_update]
       (repeat' split) <;> rfl)

theorem update_own_on (m : ModeName) (s : AgentState) (env : Env) :
    (flags (updateMode m s env).1 m).«on» = (flags s m).«on» := by
  cases m <;>
    (simp only [updateMode, self_defense_update, hunting_update, item_collecting_update,
       torch_placing_update, idle_staring_update]
     (repeat' split) <;> rfl)

theorem update_own_paused (m : ModeName) (s : AgentState) (env : Env) :
    (flags (updateMode m s env).1 m).paused = (flags s m).paused := by
  cases m <;>
    (simp only [updateMode, self_defense_update, hunting_update, item_collecting_update,
       torch_placing_update, idle_staring_update]
     (repeat' split) <;> rfl)
theorem update_on_eq (m m' : ModeName) (s : AgentState) (env : Env) :
    (flags (updateMode m s env).1 m').«on» = (flags s m').«on» := by
  by_cases h : m' = m
  · subst h; exact update_own_on m' s env
  · rw [update_flags_ne m m' s env h]

theorem update_paused_eq (m m' : ModeName) (s : AgentState) (env : Env) :
    (flags (updateMode m s env).1 m').paused = (flags s m').paused := by
  by_cases h : m' = m
  · subst h; exact update_own_paused m' s env
  · rw [update_flags_ne m m' s env h]

theorem update_guard_eq (m m' : ModeName) (s : AgentState) (env : Env) :
    guardB (updateMode m s env).1 m' = guardB s m' := by
  simp only [guardB, update_on_eq, update_paused_eq]

theorem runLoop_state_not_mem (env : Env) (l : List ModeName) (s : AgentState)
    (m : ModeName) (h : m ∉ l) :
    flags (runLoop env l s).state m = flags s m := by
  induction l generalizing s with
  | nil => rfl
  | cons a rest ih =>
    have hma : m ≠ a := fun hh => h (hh ▸ List.mem_cons_self a rest)
    have hmr : m ∉ rest := fun hh => h (List.mem_cons_of_mem a hh)
    simp only [runLoop]
    split
    · split
      · exact update_flags_ne a m s env hma
      · rw [ih _ hmr, update_flags_ne a m s env hma]
    · exact ih _ hmr

theorem runLoop_on_eq (env : Env) (l : List ModeName) (s : AgentState) (m : ModeName) :
    (flags (runLoop env l s).state m).«on» = (flags s m).«on» := by
  induction l generalizing s with
  | nil => rfl
  | cons a rest ih =>
    simp only [runLoop]
    split
    · split
      · exact update_on_eq a m s env
      · rw [ih, update_on_eq a m s env]
    · exact ih s

theorem runLoop_paused_eq (env : Env) (l : List ModeName) (s : AgentState) (m : ModeName) :
    (flags (runLoop env l s).state m).paused = (flags s m).paused := by
  induction l generalizing s with
  | nil => rfl
  | cons a rest ih =>
    simp only [runLoop]
    split
    · split
      · exact update_paused_eq a m s env
      · rw [ih, update_paused_eq a m s env]
    · exact ih s

theorem runLoop_visited_guard (env : Env) (l : List ModeName) (s : AgentState) :
    ∀ m ∈ (runLoop env l s).visited, guardB s m = true := by
  induction l generalizing s with
  | nil => intro m hm; simp [runLoop] at hm
  | cons a rest ih =>
    intro m hm
    simp only [runLoop] at hm
    by_cases hg : guardB s a = true
    · rw [if_pos hg] at hm
      by_cases ha : (flags (updateMode a s env).1 a).active = true
      · rw [if_pos ha] at hm
        simp only [List.mem_singleton] at hm
        subst hm; exact hg
      · rw [if_neg ha] at hm
        simp only [List.mem_cons] at hm
        rcases hm with rfl | hm
        · exact hg
        · have h2 := ih (updateMode a s env).1 m hm
          rwa [update_guard_eq] at h2
    · rw [if_neg hg] at hm
      exact ih s m hm

theorem runLoop_dispatched_sub (env : Env) (l : List ModeName) (s : AgentState) :
    ∀ m ∈ (runLoop env l s).dispatched, m ∈ (runLoop env l s).visited := by
  induction l generalizing s with
  | nil => intro m hm; simp [runLoop] at hm
  | cons a rest ih =>
    intro m hm
    simp only [runLoop] at hm ⊢
    by_cases hg : guardB s a = true
    · rw [if_pos hg] at hm ⊢
      by_cases ha : (flags (updateMode a s env).1 a).active = true
      · rw [if_pos ha] at hm ⊢
        split at hm
        · exact hm
        · simp at hm
      · rw [if_neg ha] at hm ⊢
        simp only [List.mem_append, List.mem_cons] at hm ⊢
        rcases hm with hm | hm
        · split at hm
          · simp only [List.mem_singleton] at hm; exact Or.inl hm
          · simp at hm
        · exact Or.inr (ih (updateMode a s env).1 m hm)
    · rw [if_neg hg] at hm ⊢
      exact ih s m hm
theorem runLoop_visited_take (env : Env) (l : List ModeName) (s : AgentState) :
    ∃ k, (runLoop env l s).visited = (l.filter (guardB s)).take k := by
  induction l generalizing s with
  | nil => exact ⟨0, rfl⟩
  | cons a rest ih =>
    simp only [runLoop, List.filter_cons]
    by_cases hg : guardB s a = true
    · rw [if_pos hg, if_pos hg]
      by_cases ha : (flags (updateMode a s env).1 a).active = true
      · rw [if_pos ha]
        exact ⟨1, rfl⟩
      · rw [if_neg ha]
        obtain ⟨k, hk⟩ := ih (updateMode a s env).1
        refine ⟨k + 1, ?_⟩
        have hfc : rest.filter (guardB (updateMode a s env).1) = rest.filter (guardB s) :=
          List.filter_congr (fun m _ => update_guard_eq a m s env)
        simp only [List.take_succ_cons]
        rw [hk, hfc]
    · rw [if_neg hg, if_neg hg]
      exact ih s

theorem runLoop_dropLast_inactive (env : Env) (l : List ModeName) (s : AgentState)
    (hl : l.Nodup) :
    ∀ m ∈ (runLoop env l s).visited.dropLast,
      (flags (runLoop env l s).state m).active = false := by
  induction l generalizing s with
  | nil => intro m hm; simp [runLoop] at hm
  | cons a rest ih =>
    have hna : a ∉ rest := (List.nodup_cons.mp hl).1
    have hnr : rest.Nodup := (List.nodup_cons.mp hl).2
    intro m hm
    simp only [runLoop] at hm ⊢
    by_cases hg : guardB s a = true
    · rw [if_pos hg] at hm ⊢
      by_cases ha : (flags (updateMode a s env).1 a).active = true
      · rw [if_pos ha] at hm ⊢
        simp at hm
      · rw [if_neg ha] at hm ⊢
        rcases hv : (runLoop env rest (updateMode a s env).1).visited with _ | ⟨b, vs⟩
        · rw [hv] at hm; simp at hm
        · rw [hv] at hm
          simp only [List.dropLast_cons₂, List.mem_cons] at hm
          rcases hm with rfl | hm
          · rw [runLoop_state_not_mem env rest _ m hna]
            simpa using ha
          · have h2 := ih (updateMode a s env).1 hnr m
            rw [hv] at h2
            exact h2 hm
    · rw [if_neg hg] at hm ⊢
      exact ih s hnr m hm

theorem runLoop_new_active_le_one (env : Env) (l : List ModeName) (s : AgentState)
    (hl : l.Nodup) :
    (l.filter (fun m =>
      !(flags s m).active && (flags (runLoop env l s).state m).active)).length ≤ 1 := by
  induction l generalizing s with
  | nil => simp
  | cons a rest ih =>
    have hna : a ∉ rest := (List.nodup_cons.mp hl).1
    have hnr : rest.Nodup := (List.nodup_cons.mp hl).2
    simp only [runLoop]
    by_cases hg : guardB s a = true
    · rw [if_pos hg]
      by_cases ha : (flags (updateMode a s env).1 a).active = true
      · rw [if_pos ha]
        show (List.filter (fun m =>
            !(flags s m).active && (flags (updateMode a s env).1 m).active)
            (a :: rest)).length ≤ 1
        have hrest : rest.filter (fun m =>
            !(flags s m).active && (flags (updateMode a s env).1 m).active) = [] := by
          rw [List.filter_eq_nil_iff]
          intro m hm
          have hne : m ≠ a := fun hh => hna (hh ▸ hm)
          rw [update_flags_ne a m s env hne]
          cases hx : (flags s m).active <;> simp [hx]
        rw [List.filter_cons, hrest]
        split <;> simp
      · rw [if_neg ha]
        show (List.filter (fun m =>
            !(flags s m).active &&
              (flags (runLoop env rest (updateMode a s env).1).state m).active)
            (a :: rest)).length ≤ 1
        have ha2 : (flags (updateMode a s env).1 a).active = false := by
          simpa using ha
        have hhead : (!(flags s a).active &&
            (flags (runLoop env rest (updateMode a s env).1).state a).active) = false := by
          rw [runLoop_state_not_mem env rest _ a hna, ha2]
          simp
        rw [List.filter_cons, if_neg (by simp [hhead])]
        have hfc : rest.filter (fun m =>
            !(flags s m).active &&
              (flags (runLoop env rest (updateMode a s env).1).state m).active) =
            rest.filter (fun m =>
            !(flags (updateMode a s env).1 m).active &&
              (flags (runLoop env rest (updateMode a s env).1).state m).active) := by
          refine List.filter_congr (fun m hm => ?_)
          have hne : m ≠ a := fun hh => hna (hh ▸ hm)
          rw [update_flags_ne a m s env hne]
        rw [hfc]
        exact ih (updateMode a s env).1 hnr
    · rw [if_neg hg]
      show (List.filter (fun m =>
          !(flags s m).active && (flags (runLoop env rest s).state m).active)
          (a :: rest)).length ≤ 1
      have hhead : (!(flags s a).active && (flags (runLoop env rest s).state a).active) = false := by
        rw [runLoop_state_not_mem env rest s a hna]
        cases hx : (flags s a).active <;> simp [hx]
      rw [List.filter_cons, if_neg (by simp [hhead])]
      exact ih s hnr

theorem unpauseAll_flags (s : AgentState) (m : ModeName) :
    flags (unpauseAll s) m = { flags s m with paused := false } := by
  cases m <;> rfl

theorem unpauseAll_on (s : AgentState) (m : ModeName) :
    (flags (unpauseAll s) m).«on» = (flags s m).«on» := by
  cases m <;> rfl

theorem unpauseAll_active (s : AgentState) (m : ModeName) :
    (flags (unpauseAll s) m).active = (flags s m).active := by
  cases m <;> rfl

theorem unpauseAll_paused (s : AgentState) (m : ModeName) :
    (flags (unpauseAll s) m).paused = false := by
  cases m <;> rfl

theorem preState_on (s : AgentState) (env : Env) (m : ModeName) :
    (flags (preState s env) m).«on» = (flags s m).«on» := by
  unfold preState
  split
  · exact unpauseAll_on s m
  · rfl

theorem preState_active (s : AgentState) (env : Env) (m : ModeName) :
    (flags (preState s env) m).active = (flags s m).active := by
  unfold preState
  split
  · exact unpauseAll_active s m
  · rfl

theorem modeOrder_nodup : modeOrder.Nodup := by decide

/-- A tick in which nothing is observed: agent idle, no entities or items in
range, a torch block already nearby, no torches in the inventory. -/
def quietEnv : Env :=
  { isIdle := true, now := 1000, enemy := none, enemyClear := false,
    huntable := none, huntableClear := false, item := none, itemClear := false,
    nearTorch := true, hasTorch := false, nearestEntity := none,
    entityDistLt10 := false, entityIsEnderman := false, randStaring := false,
    randStareMs := 0, randChangeMs := 0 }

/-- A tick with the agent busy (not idle) and a reachable hostile entity. -/
def envEnemyBusy : Env :=
  { quietEnv with isIdle := false, enemy := some 1, enemyClear := true }

/-- After a quiet idle tick, `idle_staring` is active; a hostile sighting on
the next tick then activates `self_defense` and breaks the loop before
`idle_staring.update` can clear its flag. -/
def twoActiveState : AgentState := tick (tick initState quietEnv) envEnemyBusy

/-- C1 counterexample: the claimed invariant "at most one mode has
`active = true` at every instant in every reachable state" is false.  From
the initial state, one idle quiet tick makes `idle_staring` active; a
second tick that sights a hostile activates `self_defense` and stops
iterating, so `idle_staring.update` never runs to clear its flag and two
modes are active simultaneously. -/
theorem C1_counterexample_two_active :
    Reachable twoActiveState ∧ countActive twoActiveState = 2 ∧
    (flags twoActiveState ModeName.self_defense).active = true ∧
    (flags twoActiveState ModeName.idle_staring).active = true :=
  ⟨Reachable.tick envEnemyBusy (Reachable.tick quietEnv Reachable.init),
   by decide, by decide, by decide⟩

/-- C1 (amended): in every tick at most one mode transitions from
`active = false` to `active = true` (the controller stops at the first mode
that is active after its update), although several modes may simultaneously
hold `active = true` across ticks. -/
theorem C1_amended_one_new_active_per_tick (s : AgentState) (env : Env) :
    (modeOrder.filter (fun m =>
      !(flags s m).active && (flags (tick s env) m).active)).length ≤ 1 := by
  have h := runLoop_new_active_le_one env modeOrder (preState s env) modeOrder_nodup
  have hfc : modeOrder.filter (fun m =>
      !(flags s m).active && (flags (tick s env) m).active) =
      modeOrder.filter (fun m =>
      !(flags (preState s env) m).active &&
        (flags (runLoop env modeOrder (preState s env)).state m).active) := by
    refine List.filter_congr (fun m _ => ?_)
    rw [preState_active]
    rfl
  rw [hfc]
  exact h

/-- A tick with both a reachable hostile and a reachable huntable animal,
agent idle: both `self_defense` and `hunting` are triggerable. -/
def envFight : Env :=
  { quietEnv with
      enemy := some 1
      enemyClear := true
      huntable := some 2
      huntableClear := true }

/-- C2: each tick visits modes in registry priority order (the visited list
is a prefix of the registry order filtered by `on && !paused`), a mode's
update is invoked only when it is on and unpaused, every visited mode
except possibly the last is inactive when the tick ends (iteration stopped
at the first active mode), and in the concrete two-trigger scenario
`self_defense` activates while `hunting` is never visited. -/
theorem C2_priority_arbitration :
    (∀ s env, ∃ k,
        (tickR s env).visited = (modeOrder.filter (guardB (preState s env))).take k) ∧
    (∀ s env, ∀ m ∈ (tickR s env).visited, guardB (preState s env) m = true) ∧
    (∀ s env, ∀ m ∈ (tickR s env).visited.dropLast,
        (flags (tick s env) m).active = false) ∧
    ((tickR initState envFight).visited = [ModeName.self_defense] ∧
      (flags (tick initState envFight) ModeName.self_defense).active = true ∧
      ModeName.hunting ∉ (tickR initState envFight).visited) := by
  refine ⟨?_, ?_, ?_, by decide, by decide, by decide⟩
  · intro s env
    exact runLoop_visited_take env modeOrder (preState s env)
  · intro s env
    exact runLoop_visited_guard env modeOrder (preState s env)
  · intro s env
    exact runLoop_dropLast_inactive env modeOrder (preState s env) modeOrder_nodup

/-- C2 witness: the visited-mode guard instantiated at the two-trigger
scenario. -/
theorem C2_priority_arbitration_witness :
    guardB (preState initState envFight) ModeName.self_defense = true :=
  C2_priority_arbitration.2.1 initState envFight ModeName.self_defense (by decide)

/-- C5: one `execute` invocation started on an inactive mode flips `active`
exactly false, true, false; whatever the outcome of the action (success,
failure or timeout), `on` and `paused` are untouched, so the mode stays
enabled and eligible to re-trigger. -/
theorem C5_execute_wrapper_round_trip (f : ModeFlags) (o : Outcome)
    (h : f.active = false) :
    [f.active, (executeStart f).active, (executeFinish (executeStart f) o).active] =
      [false, true, false] ∧
    (executeFinish (executeStart f) o).«on» = f.«on» ∧
    (executeFinish (executeStart f) o).paused = f.paused := by
  simp [executeStart, executeFinish, h]

/-- C5 witness: the wrapper round trip on a concrete enabled, inactive mode
whose action fails. -/
theorem C5_execute_wrapper_witness :
    [(⟨true, false, false⟩ : ModeFlags).active,
      (executeStart ⟨true, false, false⟩).active,
      (executeFinish (executeStart ⟨true, false, false⟩)
        ⟨OutcomeStatus.failure, "err"⟩).active] = [false, true, false] ∧
    (executeFinish (executeStart ⟨true, false, false⟩)
      ⟨OutcomeStatus.failure, "err"⟩).«on» = (⟨true, false, false⟩ : ModeFlags).«on» ∧
    (executeFinish (executeStart ⟨true, false, false⟩)
      ⟨OutcomeStatus.failure, "err"⟩).paused = (⟨true, false, false⟩ : ModeFlags).paused :=
  C5_execute_wrapper_round_trip ⟨true, false, false⟩ ⟨OutcomeStatus.failure, "err"⟩ rfl

/-- A tick with a reachable huntable animal and an idle agent. -/
def envHunt : Env := { quietEnv with huntable := some 3, huntableClear := true }

/-- The reachable state in which `hunting` has an action in flight. -/
def huntingActiveState : AgentState := tick initState envHunt

/-- C7 counterexample: `hunting.update` has no `if (this.active) return`
guard, so with `hunting` active and the oracle still reporting idle, the
next tick re-evaluates hunting's trigger and dispatches a second action
through the wrapper while the first is still in flight. -/
theorem C7_counterexample_hunting_redispatch :
    Reachable huntingActiveState ∧
    (flags huntingActiveState ModeName.hunting).active = true ∧
    ModeName.hunting ∈ (tickR huntingActiveState envHunt).visited ∧
    ModeName.hunting ∈ (tickR huntingActiveState envHunt).dispatched :=
  ⟨Reachable.tick envHunt Reachable.init, by decide, by decide, by decide⟩

/-- C7 (amended): the `if (active) return` skip holds for the three modes
that implement it — `self_defense`, `item_collecting` and `torch_placing`:
while such a mode is active its update returns immediately, changing
nothing and dispatching nothing.  `hunting` has no such guard (see the
counterexample) and `idle_staring` deliberately has none. -/
theorem C7_amended_guarded_modes_skip (s : AgentState) (env : Env) (m : ModeName)
    (hm : m = ModeName.self_defense ∨ m = ModeName.item_collecting ∨
      m = ModeName.torch_placing)
    (h : (flags s m).active = true) :
    updateMode m s env = (s, false) := by
  rcases hm with rfl | rfl | rfl
  · simp only [flags] at h
    simp [updateMode, self_defense_update, h]
  · simp only [flags] at h
    simp [updateMode, item_collecting_update, h]
  · simp only [flags] at h
    simp [updateMode, torch_placing_update, h]

/-- A state in which `self_defense` has an action in flight. -/
def sdActiveState : AgentState := { initState with self_defense := ⟨true, true, false⟩ }

/-- C7 witness: an active `self_defense` is skipped unchanged. -/
theorem C7_amended_guarded_modes_witness :
    updateMode ModeName.self_defense sdActiveState quietEnv = (sdActiveState, false) :=
  C7_amended_guarded_modes_skip sdActiveState quietEnv ModeName.self_defense
    (Or.inl rfl) rfl

/-- C9: `idle_staring.update` never calls `execute`, and after any update
its `active` flag equals the idle predicate: set while the agent is idle,
cleared by the first update with the agent not idle. -/
theorem C9_idle_staring_cosmetic (s : AgentState) (env : Env) :
    (idle_staring_update s env).2 = false ∧
    ((idle_staring_update s env).1).idle_staring.active = env.isIdle := by
  unfold idle_staring_update
  cases h : env.isIdle
  · simp [h, setFlags]
  · simp only [h, if_true]
    refine ⟨trivial, ?_⟩
    (repeat' split) <;> rfl

/-- An idle tick at time `n` whose nearest dropped item is `it`, with a
clear path to it. -/
def icEnv (n : Nat) (it : Option Nat) : Env :=
  { quietEnv with
      now := n
      item := it
      itemClear := true }

/-- State after `item_collecting` first notices item 5 at time 1000. -/
def icSeen1000 : AgentState :=
  (item_collecting_update initState (icEnv 1000 (some 5))).1

/-- State after `item_collecting` first notices item 5 at time 0. -/
def icSeenAt0 : AgentState :=
  (item_collecting_update initState (icEnv 0 (some 5))).1

/-- State after the best candidate switches from item 5 to item 7 at time
1000: the timer keeps the time item 5 was first seen. -/
def icSwitched : AgentState :=
  (item_collecting_update icSeenAt0 (icEnv 1000 (some 7))).1

/-- C3 counterexample: both timing sub-claims fail on the code.  First, the
trigger comparison is strict (`>`), so a candidate first observed at 1000
does not trigger at the tick at exactly 3000 = T + 2s (it triggers at
3001).  Second, the timer tracks no candidate identity: after item 5 is
observed at time 0 and the best candidate switches to item 7 at time 1000,
`noticed_at` still holds 0, and the stale timer fires the pickup at time
2500, before item 7 has been the candidate for 2 seconds. -/
theorem C3_counterexample_boundary_and_switch :
    (icSeen1000.ic_noticed_at = 1000 ∧
      (item_collecting_update icSeen1000 (icEnv 3000 (some 5))).2 = false ∧
      (item_collecting_update icSeen1000 (icEnv 3001 (some 5))).2 = true) ∧
    (icSwitched.ic_noticed_at = 0 ∧
      (item_collecting_update icSwitched (icEnv 2500 (some 7))).2 = true) := by
  refine ⟨⟨by decide, by decide, by decide⟩, by decide, by decide⟩

/-- The eligibility condition of one `item_collecting.update` call: mode
not active, agent idle, some nearest item present that differs from
`prev_item`, with a clear path. -/
def icEligible (s : AgentState) (env : Env) : Bool :=
  !s.item_collecting.active && env.isIdle &&
    (match env.item with
     | some i => (some i != s.ic_prev_item) && env.itemClear
     | none => false)

/-- C3 (amended): the dwell gate triggers exactly when the call is eligible
with a running timer strictly older than 2000 ms; an eligible call with no
running timer starts it at the current time without triggering; an eligible
call within the window leaves the timer untouched even if the candidate
item differs from the one that started the timer; the timer is reset only
by an idle, inactive call whose eligibility fails (no item, item equal to
`prev_item`, or blocked path); and a trigger records the item in
`prev_item`, sets the mode active and clears the timer. -/
theorem C3_amended_debounce_characterization (s : AgentState) (env : Env) :
    ((item_collecting_update s env).2 = true ↔
      (icEligible s env = true ∧ s.ic_noticed_at ≠ -1 ∧
        (env.now : Int) - s.ic_noticed_at > 2000)) ∧
    (icEligible s env = true → s.ic_noticed_at = -1 →
      (item_collecting_update s env).1.ic_noticed_at = (env.now : Int) ∧
      (item_collecting_update s env).2 = false) ∧
    (icEligible s env = true → s.ic_noticed_at ≠ -1 →
      ¬((env.now : Int) - s.ic_noticed_at > 2000) →
      (item_collecting_update s env).1.ic_noticed_at = s.ic_noticed_at ∧
      (item_collecting_update s env).2 = false) ∧
    (s.item_collecting.active = false → env.isIdle = true → icEligible s env = false →
      (item_collecting_update s env).1.ic_noticed_at = -1) ∧
    ((item_collecting_update s env).2 = true →
      (item_collecting_update s env).1.ic_prev_item = env.item ∧
      (item_collecting_update s env).1.item_collecting.active = true ∧
      (item_collecting_update s env).1.ic_noticed_at = -1) := by
  unfold item_collecting_update icEligible ic_wait
  cases hact : s.item_collecting.active <;> cases hidle : env.isIdle <;>
    cases hitem : env.item <;>
    simp only [hact, hidle, hitem, Bool.false_and, Bool.true_and, Bool.and_false,
      Bool.and_true, Bool.not_false, Bool.not_true, if_false, if_true,
      Bool.false_eq_true, Bool.true_eq_false, ite_false, ite_true] <;>
    simp_all <;>
    (try constructor) <;>
    (repeat' split) <;> simp_all [setFlags, executeStart] <;> omega

/-- A state whose dwell timer has been running since time 0. -/
def icReady : AgentState := { initState with ic_noticed_at := 0 }

/-- C3 witness: the trigger characterization instantiated at a timer
strictly older than 2000 ms. -/
theorem C3_amended_debounce_witness :
    (item_collecting_update icReady (icEnv 2500 (some 5))).2 = true :=
  (C3_amended_debounce_characterization icReady (icEnv 2500 (some 5))).1.mpr
    ⟨by decide, by decide, by decide⟩

/-- C4 counterexample: `"toString"` is not a registered mode name, yet
`pause`, `setOn` and `isOn` applied to it do not fail: `modes_map` is an
object literal, and the lookup finds `Object.prototype.toString`, so the
calls are silently absorbed instead of raising a configuration error. -/
theorem C4_counterexample_proto_name_no_error :
    findMode "toString" = none ∧
    pauseE initState "toString" = Except.ok initState ∧
    setOnE initState "toString" false = Except.ok initState ∧
    isOnE initState "toString" = Except.ok none :=
  ⟨rfl, rfl, rfl, rfl⟩

/-- C4 (amended): for every name that resolves to neither a registered mode
nor a member inherited from `Object.prototype`, each of `setOn`, `isOn` and
`pause` raises a `TypeError` immediately, no result state is produced, and
the caller's registry state is unchanged; names of inherited
`Object.prototype` members (such as `"toString"`) are instead silently
absorbed without an error, also leaving every mode's fields unchanged. -/
theorem C4_amended_unknown_name_fails_fast (s : AgentState) (name : String) (b : Bool)
    (h : mapLookup name = MapLookup.missing) :
    (setOnE s name b = Except.error "TypeError: cannot set properties of undefined" ∧
      isOnE s name = Except.error "TypeError: cannot read properties of undefined" ∧
      pauseE s name = Except.error "TypeError: cannot set properties of undefined" ∧
      (∀ s', setOnE s name b = Except.ok s' → False) ∧
      (∀ s', pauseE s name = Except.ok s' → False)) ∧
    ((match setOnE s name b with | .ok s' => s' | .error _ => s) = s ∧
      (match pauseE s name with | .ok s' => s' | .error _ => s) = s) := by
  unfold setOnE isOnE pauseE
  rw [h]
  simp

/-- C4 witness: the fail-fast behaviour at the unregistered name
`"nonexistent"`. -/
theorem C4_amended_unknown_name_witness :
    setOnE initState "nonexistent" true =
      Except.error "TypeError: cannot set properties of undefined" :=
  (C4_amended_unknown_name_fails_fast initState "nonexistent" true rfl).1.1

/-- C10 counterexample: `exists("toString")` returns `true` although
`"toString"` is not one of the five registered mode names — `modes_map` is
an object literal, and `modes_map["toString"]` finds the inherited
`Object.prototype.toString`, which is not `null`. -/
theorem C10_counterexample_proto_name_exists :
    existsMode "toString" = true ∧
    ("toString" ∈ ["self_defense", "hunting", "item_collecting",
        "torch_placing", "idle_staring"] → False) := by
  exact ⟨rfl, by decide⟩

/-- Helper: each of the five registered names is found by the constructor's
map. -/
theorem findMode_of_registered (name : String)
    (h : name ∈ ["self_defense", "hunting", "item_collecting",
      "torch_placing", "idle_staring"]) :
    (findMode name).isSome = true := by
  simp only [List.mem_cons, List.mem_singleton, List.not_mem_nil, or_false] at h
  rcases h with rfl | rfl | rfl | rfl | rfl <;> decide

/-- C10 (amended): `exists` is a total boolean function of the name and
never raises; it returns `true` exactly when the name is one of the five
registered mode names or the name of a member inherited from
`Object.prototype` by the object literal backing `modes_map`, and `false`
for every other string. -/
theorem C10_amended_exists_characterization (name : String) :
    existsMode name = true ↔
      (name ∈ ["self_defense", "hunting", "item_collecting", "torch_placing",
          "idle_staring"] ∨ name ∈ objectProtoProps) := by
  unfold existsMode mapLookup
  cases hf : findMode name with
  | some m =>
    have hname : modeNameStr m = name := by
      have h2 := List.find?_some hf
      simpa using h2
    simp only []
    constructor
    · intro _
      left
      rw [← hname]
      cases m <;> decide
    · intro _
      cases m <;> decide
  | none =>
    by_cases hp : name ∈ objectProtoProps
    · rw [if_pos hp]
      simp [hp]
    · rw [if_neg hp]
      constructor
      · intro hcontra
        exact absurd hcontra (by decide)
      · intro hmem
        rcases hmem with hmem | hmem
        · have h5 := findMode_of_registered name hmem
          rw [hf] at h5
          simp at h5
        · exact absurd hmem hp

/-- Helper: a tick never changes a mode's `on` flag. -/
theorem tick_on_eq (s : AgentState) (env : Env) (m : ModeName) :
    (flags (tick s env) m).«on» = (flags s m).«on» := by
  have h := runLoop_on_eq env modeOrder (preState s env) m
  rw [preState_on] at h
  exact h

/-- C6: when the idle predicate holds at the start of a tick, every mode is
unpaused before the evaluation phase; a tick leaves `paused` exactly
`!isIdle && paused`, so the idle unpause pass is the only place a tick
clears it; and neither `pause` nor `setOn` ever clears a `paused` flag. -/
theorem C6_unpause_protocol (s : AgentState) (env : Env) (m : ModeName) :
    (env.isIdle = true → (flags (preState s env) m).paused = false) ∧
    ((flags (tick s env) m).paused = (!env.isIdle && (flags s m).paused)) ∧
    (∀ name s', pauseE s name = Except.ok s' → (flags s m).paused = true →
      (flags s' m).paused = true) ∧
    (∀ name b s', setOnE s name b = Except.ok s' →
      (flags s' m).paused = (flags s m).paused) := by
  refine ⟨?_, ?_, ?_, ?_⟩
  · intro h
    unfold preState
    rw [if_pos h]
    exact unpauseAll_paused s m
  · have h1 : (flags (tick s env) m).paused = (flags (preState s env) m).paused :=
      runLoop_paused_eq env modeOrder (preState s env) m
    rw [h1]
    unfold preState
    cases h : env.isIdle
    · simp
    · simp [unpauseAll_paused]
  · intro name s' hok hp
    unfold pauseE at hok
    cases hl : mapLookup name <;> rw [hl] at hok <;> simp at hok
    case found m' =>
      rw [← hok]
      by_cases hmm : m = m'
      · subst hmm
        rw [flags_setFlags_self]
      · rw [flags_setFlags_ne s m' m _ hmm]
        exact hp
    case inherited =>
      rw [← hok]
      exact hp
  · intro name b s' hok
    unfold setOnE at hok
    cases hl : mapLookup name <;> rw [hl] at hok <;> simp at hok
    case found m' =>
      rw [← hok]
      by_cases hmm : m = m'
      · subst hmm
        rw [flags_setFlags_self]
      · rw [flags_setFlags_ne s m' m _ hmm]
    case inherited =>
      rw [← hok]

/-- A state in which `hunting` is paused. -/
def pausedState : AgentState := { initState with hunting := ⟨true, false, true⟩ }

/-- The state `pause("self_defense")` produces from `pausedState`. -/
def pausedSet : AgentState :=
  setFlags pausedState ModeName.self_defense
    { flags pausedState ModeName.self_defense with paused := true }

/-- The state `setOn("torch_placing", false)` produces from `pausedState`. -/
def onSet : AgentState :=
  setFlags pausedState ModeName.torch_placing
    { flags pausedState ModeName.torch_placing with «on» := false }

/-- C6 witness: the unpause pass clears hunting's paused flag on an idle
tick, and neither a `pause` of another mode nor a `setOn` touches it. -/
theorem C6_unpause_protocol_witness :
    (flags (preState pausedState quietEnv) ModeName.hunting).paused = false ∧
    (flags pausedSet ModeName.hunting).paused = true ∧
    (flags onSet ModeName.hunting).paused = (flags pausedState ModeName.hunting).paused :=
  ⟨(C6_unpause_protocol pausedState quietEnv ModeName.hunting).1 rfl,
   (C6_unpause_protocol pausedState quietEnv ModeName.hunting).2.2.1
     "self_defense" pausedSet rfl rfl,
   (C6_unpause_protocol pausedState quietEnv ModeName.hunting).2.2.2
     "torch_placing" false onSet rfl⟩

/-- The visited traces of a sequence of consecutive ticks. -/
def tickSeqVisited : AgentState → List Env → List ModeName
  | _, [] => []
  | s, e :: es => (tickR s e).visited ++ tickSeqVisited (tickR s e).state es

/-- The dispatch traces of a sequence of consecutive ticks. -/
def tickSeqDispatched : AgentState → List Env → List ModeName
  | _, [] => []
  | s, e :: es => (tickR s e).dispatched ++ tickSeqDispatched (tickR s e).state es

/-- Helper: a mode whose `on` flag is false is never visited nor dispatched
by any sequence of ticks. -/
theorem off_not_in_tick_seq (s : AgentState) (envs : List Env) (m : ModeName)
    (h : (flags s m).«on» = false) :
    m ∉ tickSeqVisited s envs ∧ m ∉ tickSeqDispatched s envs := by
  induction envs generalizing s with
  | nil => simp [tickSeqVisited, tickSeqDispatched]
  | cons e es ih =>
    have hnv : m ∉ (tickR s e).visited := by
      intro hmem
      have hg := runLoop_visited_guard e modeOrder (preState s e) m hmem
      unfold guardB at hg
      rw [preState_on, h] at hg
      simp at hg
    have hnd : m ∉ (tickR s e).dispatched := fun hmem =>
      hnv (runLoop_dispatched_sub e modeOrder (preState s e) m hmem)
    have hnext : (flags (tickR s e).state m).«on» = false := by
      have h2 := tick_on_eq s e m
      rw [h] at h2
      exact h2
    obtain ⟨ih1, ih2⟩ := ih (tickR s e).state hnext
    constructor
    · simp only [tickSeqVisited, List.mem_append, not_or]
      exact ⟨hnv, ih1⟩
    · simp only [tickSeqDispatched, List.mem_append, not_or]
      exact ⟨hnd, ih2⟩

/-- C8: after a successful `setOn(name, false)`, no sequence of subsequent
ticks ever visits or dispatches that mode, whatever the world does, since
updates and the unpause pass never change `on`. -/
theorem C8_disabled_mode_never_triggers (s : AgentState) (name : String) (m : ModeName)
    (s' : AgentState) (hfind : findMode name = some m)
    (hset : setOnE s name false = Except.ok s') (envs : List Env) :
    m ∉ tickSeqVisited s' envs ∧ m ∉ tickSeqDispatched s' envs := by
  have hml : mapLookup name = .found m := by
    unfold mapLookup
    rw [hfind]
  unfold setOnE at hset
  rw [hml] at hset
  simp at hset
  have hoff : (flags s' m).«on» = false := by
    rw [← hset, flags_setFlags_self]
  exact off_not_in_tick_seq s' envs m hoff

/-- A tick with a reachable huntable animal present, used against a
disabled `hunting`. -/
def envHunt8 : Env := { quietEnv with huntable := some 9, huntableClear := true }

/-- The state `setOn("hunting", false)` produces from the initial state. -/
def huntOffState : AgentState :=
  setFlags initState ModeName.hunting
    { flags initState ModeName.hunting with «on» := false }

/-- C8 witness: with hunting disabled, a tick that would otherwise trigger
it neither visits nor dispatches it. -/
theorem C8_disabled_mode_witness :
    ModeName.hunting ∉ tickSeqVisited huntOffState [envHunt8] ∧
    ModeName.hunting ∉ tickSeqDispatched huntOffState [envHunt8] :=
  C8_disabled_mode_never_triggers initState "hunting" ModeName.hunting huntOffState
    rfl rfl [envHunt8]
